import Mathlib

/-!
Shallow embedding of the flux flow-relay HTTP facade (src/src/main.rs).

Only the facade source is available; the modules auth, flow and pool it
declares are not part of the source tree.  Their observable behaviour is
abstracted as explicit inputs (oracles) to the embedded handlers, and, where
a claim depends on the missing module itself, modelled from the spec (see
the definition of verify below).

Bytes are modelled as Nat, byte strings as List Nat; HTTP paths as
List Char.  JSON bodies produced by serde_json are ASCII, so their byte
representation is the code-point list of the rendered string.
-/

/-- Content types used by the facade: ContentType::json() and
ContentType::octet_stream(). -/
inductive CType where
  | json
  | octetStream
deriving DecidableEq, Repr

/-- Embedding of the hyper ContentDisposition header as built by handle_pull:
DispositionType::Attachment with a single DispositionParam::Filename carrying
a charset, a language tag and the raw filename bytes. -/
structure ContentDisp where
  attachment : Bool
  charset : String
  language : String
  filenameBytes : List Nat
deriving DecidableEq, Repr

/-- Embedding of a hyper Response as far as the facade observes it: the
status code, the headers the facade sets, and the body bytes (none when the
facade never attaches a body). -/
structure Response where
  status : Nat := 200
  contentLength : Option Nat := none
  contentType : Option CType := none
  contentDisposition : Option ContentDisp := none
  body : Option (List Nat) := none
deriving DecidableEq, Repr

/-- Byte representation of an ASCII string (code points; agrees with UTF-8
on the ASCII JSON bodies the facade produces). -/
def strBytes (s : String) : List Nat := s.data.map Char.toNat

/-- serde_json rendering of ErrorResponse \x7b message \x7d. -/
def errorJson (msg : String) : String :=
  "\x7b\"message\":\"" ++ msg ++ "\"\x7d"

/-- serde_json rendering of NewResponse \x7b id, token \x7d. -/
def newJson (id token : String) : String :=
  "\x7b\"id\":\"" ++ id ++ "\",\"token\":\"" ++ token ++ "\"\x7d"

/-- serde_json rendering of StatusResponse \x7b tail, next \x7d. -/
def statusJson (tailIdx next : Nat) : String :=
  "\x7b\"tail\":" ++ toString tailIdx ++ ",\"next\":" ++ toString next ++ "\x7d"

/-- FlowService::response_ok: Response::new().with_header(ContentLength(0)). -/
def response_ok : Response := { contentLength := some 0 }

/-- FlowService::response_error: status BadRequest with the JSON error body
and its ContentLength. -/
def response_error (msg : String) : Response :=
  { status := 400
    contentLength := some (strBytes (errorJson msg)).length
    body := some (strBytes (errorJson msg)) }

/-- Response::new().with_status(StatusCode::NotFound): bare 404, no body. -/
def notFoundResponse : Response := { status := 404 }

/-- Error enum of main.rs (the Internal(hyper::Error) variant propagates a
transport error instead of producing a response, so it is not needed for the
response-level claims). -/
inductive ServiceError where
  | invalid
  | notReady
deriving DecidableEq, Repr

/-- Error enum of the flow module, as listed by the spec and matched on by
the facade (flow::Error::Invalid, Eof, Dropped, plus the remaining kinds the
facade maps to catch-all arms). -/
inductive FlowError where
  | invalid
  | eof
  | dropped
  | notReady
  | timeout
  | internal
deriving DecidableEq, Repr

/-- NewRequest parameter document: optional size field. -/
structure NewRequest where
  size : Option Nat
deriving DecidableEq, Repr

/-- FlowService::parse_request_parameter: reject when the Content-Length
header is absent, zero or above 4096, then parse the body; a serde_json
failure (modelled by the parsed oracle being none) is Error::Invalid. -/
def parse_request_parameter (contentLength : Option Nat)
    (parsed : Option NewRequest) : Except ServiceError NewRequest :=
  match contentLength with
  | none => .error .invalid
  | some len =>
    if len == 0 || len > 4096 then .error .invalid
    else
      match parsed with
      | some p => .ok p
      | none => .error .invalid

/-- FlowService::handle_new: parse the parameter document, ask the pool to
admit a fresh flow (poolAdmit oracle; failure is Error::NotReady), then
answer 200 with the id/token JSON; Invalid maps to 400 Invalid Parameter and
NotReady to 503. -/
def handle_new (contentLength : Option Nat) (parsed : Option NewRequest)
    (poolAdmit : Bool) (flowId token : String) : Response :=
  let step : Except ServiceError String :=
    (parse_request_parameter contentLength parsed).bind fun _ =>
      if poolAdmit then .ok flowId else .error .notReady
  match step with
  | .ok fid =>
    let b := strBytes (newJson fid token)
    { status := 200, contentType := some .json
      contentLength := some b.length, body := some b }
  | .error .invalid => response_error "Invalid Parameter"
  | .error .notReady => { status := 503 }

/-- C1: for every POST /new request, a missing, zero or over-4096
Content-Length, or an unparsable body, yields 400 with the Invalid Parameter
JSON body; with a valid parameter document, pool refusal yields 503 and pool
admission yields 200 with the id/token JSON body. -/
theorem handle_new_spec (contentLength : Option Nat) (parsed : Option NewRequest)
    (poolAdmit : Bool) (flowId token : String) :
    ((contentLength = none ∨ contentLength = some 0 ∨
        (∀ n, contentLength = some n → 4096 < n) ∨ parsed = none) →
      handle_new contentLength parsed poolAdmit flowId token =
        response_error "Invalid Parameter") ∧
    (∀ n p, contentLength = some n → 0 < n → n ≤ 4096 → parsed = some p →
      (poolAdmit = false →
        handle_new contentLength parsed poolAdmit flowId token =
          { status := 503 }) ∧
      (poolAdmit = true →
        handle_new contentLength parsed poolAdmit flowId token =
          { status := 200, contentType := some .json
            contentLength := some (strBytes (newJson flowId token)).length
            body := some (strBytes (newJson flowId token)) })) := by
  constructor
  · intro h
    rcases h with h | h | h | h
    · subst h; rfl
    · subst h; rfl
    · cases contentLength with
      | none => rfl
      | some n =>
        have hn := h n rfl
        simp only [handle_new, parse_request_parameter]
        have : (n == 0 || n > 4096) = true := by
          simp [Nat.lt_of_lt_of_le] ; omega
        simp [this, Except.bind]
    · subst h
      cases contentLength with
      | none => rfl
      | some n =>
        simp only [handle_new, parse_request_parameter]
        by_cases hz : (n == 0 || n > 4096) = true
        · simp [hz, Except.bind]
        · simp [hz, Except.bind]
  · intro n p hcl hpos hle hp
    subst hcl; subst hp
    have hz : (n == 0 || n > 4096) = false := by
      simp ; omega
    constructor
    · intro hpa; subst hpa
      simp [handle_new, parse_request_parameter, hz, Except.bind]
    · intro hpa; subst hpa
      simp [handle_new, parse_request_parameter, hz, Except.bind]

/-- Witness for handle_new_spec at concrete inputs. -/
theorem handle_new_spec_witness :
    handle_new (some 14) (some ⟨some 5⟩) true "fid" "tok" =
      { status := 200, contentType := some .json
        contentLength := some (strBytes (newJson "fid" "tok")).length
        body := some (strBytes (newJson "fid" "tok")) } :=
  (handle_new_spec (some 14) (some ⟨some 5⟩) true "fid" "tok").2 14 ⟨some 5⟩
    rfl (by decide) (by decide) rfl |>.2 rfl

/-- Modelled from the spec: the auth module (HMACAuthorizer) is not in the
source tree.  Per the spec, Sign(flow_id) returns 64 lowercase hex digits
(a keyed HMAC-SHA256, abstracted here as the sign oracle) and
Verify(flow_id, token) is a total constant-time comparison of the presented
token against the signature; mismatched length or non-hex input is simply a
failed comparison.  FlowService::check_authorization returns whether verify
succeeded. -/
def verify (sign : String → String) (flowId token : String) : Bool :=
  token == sign flowId

/-- Body-accumulation loop of FlowService::handle_push: fold the HTTP body
chunks into a buffer, calling Flow.push (the flowPush oracle; false means
the push failed) whenever the buffer has reached REF_SIZE bytes, and flush
a non-empty residue after the last chunk.  Returns the list of payloads
passed to Flow.push, in order, and whether every push succeeded (a failed
push aborts the fold, as the error short-circuits the future chain). -/
def pushBody (refSize : Nat) (flowPush : List Nat → Bool) :
    List (List Nat) → List Nat → List (List Nat) × Bool
  | [], buf =>
    if 0 < buf.length then ([buf], flowPush buf) else ([], true)
  | chunk :: rest, buf =>
    if refSize ≤ (buf ++ chunk).length then
      if flowPush (buf ++ chunk) then
        ((buf ++ chunk) :: (pushBody refSize flowPush rest []).1,
          (pushBody refSize flowPush rest []).2)
      else ([buf ++ chunk], false)
    else pushBody refSize flowPush rest (buf ++ chunk)

/-- FlowService::handle_push: a missing token query parameter is 400
Missing Token; a failed authorization or an unknown flow id is a bare 404;
otherwise the body is folded into REF_SIZE buffers pushed into the flow,
answering 200 on success and 400 Not Ready if any push fails.  The pool
lookup and Flow.push are oracles standing for the missing pool and flow
modules; tokenParam is the result of the token query-string lookup. -/
def handle_push (sign : String → String) (pool : String → Option Unit)
    (refSize : Nat) (flowPush : List Nat → Bool)
    (flowId : String) (tokenParam : Option String)
    (body : List (List Nat)) : Response :=
  match tokenParam with
  | none => response_error "Missing Token"
  | some token =>
    if ! verify sign flowId token then notFoundResponse
    else
      match pool flowId with
      | none => notFoundResponse
      | some _ =>
        let r := pushBody refSize flowPush body []
        if r.2 then response_ok else response_error "Not Ready"

/-- FlowService::handle_eof: a missing token query parameter is 400
Missing Token; a failed authorization or an unknown flow id is a bare 404;
otherwise Flow.close (the closeResult oracle) is invoked, mapping success
to 200 empty, flow::Error::Invalid to 400 Closed and any other error to
500. -/
def handle_eof (sign : String → String) (pool : String → Option Unit)
    (closeResult : Except FlowError Unit)
    (flowId : String) (tokenParam : Option String) : Response :=
  match tokenParam with
  | none => response_error "Missing Token"
  | some token =>
    if ! verify sign flowId token then notFoundResponse
    else
      match pool flowId with
      | none => notFoundResponse
      | some _ =>
        match closeResult with
        | .ok _ => response_ok
        | .error .invalid => response_error "Closed"
        | .error _ => { status := 500 }

/-- C2: on push and eof requests carrying a token, a malformed token (its
length is not the 64 hex digits a signature has), a well-formed but wrong
token, and an unknown flow id all produce the identical bare 404 response
with no body, on both handlers, so the response does not distinguish an
unknown flow from a wrong token. -/
theorem auth_failures_identical (sign : String → String)
    (pool : String → Option Unit) (refSize : Nat) (flowPush : List Nat → Bool)
    (closeResult : Except FlowError Unit)
    (flowId uid mtok wtok tok : String) (body : List (List Nat))
    (hsig : (sign flowId).length = 64)
    (hmal : mtok.length ≠ 64)
    (hwrong : wtok ≠ sign flowId)
    (huid : pool uid = none) :
    handle_push sign pool refSize flowPush flowId (some mtok) body =
      notFoundResponse ∧
    handle_push sign pool refSize flowPush flowId (some wtok) body =
      notFoundResponse ∧
    handle_push sign pool refSize flowPush uid (some tok) body =
      notFoundResponse ∧
    handle_eof sign pool closeResult flowId (some mtok) = notFoundResponse ∧
    handle_eof sign pool closeResult flowId (some wtok) = notFoundResponse ∧
    handle_eof sign pool closeResult uid (some tok) = notFoundResponse ∧
    notFoundResponse.status = 404 ∧ notFoundResponse.body = none := by
  have hmal2 : mtok ≠ sign flowId := by
    intro h; exact hmal (h ▸ hsig)
  have vmal : verify sign flowId mtok = false := by
    simp [verify, hmal2]
  have vwrong : verify sign flowId wtok = false := by
    simp [verify, hwrong]
  refine ⟨?_, ?_, ?_, ?_, ?_, ?_, rfl, rfl⟩
  · simp [handle_push, vmal]
  · simp [handle_push, vwrong]
  · simp only [handle_push]
    cases hv : verify sign uid tok with
    | false => simp
    | true => simp [huid]
  · simp [handle_eof, vmal]
  · simp [handle_eof, vwrong]
  · simp only [handle_eof]
    cases hv : verify sign uid tok with
    | false => simp
    | true => simp [huid]

/-- Witness for auth_failures_identical at concrete inputs: a constant
signer issuing a fixed 64-character token, an empty pool, a malformed
token x and a wrong token of the right length. -/
theorem auth_failures_identical_witness :
    handle_push (fun _ => "aaaaaaaaaaaaaaaaaaaaaaaaaaaaaaaaaaaaaaaaaaaaaaaaaaaaaaaaaaaaaaaa")
        (fun _ => none) 4 (fun _ => true) "id" (some "x") [] =
      notFoundResponse ∧
    handle_eof (fun _ => "aaaaaaaaaaaaaaaaaaaaaaaaaaaaaaaaaaaaaaaaaaaaaaaaaaaaaaaaaaaaaaaa")
        (fun _ => none) (.ok ()) "uid" (some "t") = notFoundResponse := by
  have h := auth_failures_identical
    (fun _ => "aaaaaaaaaaaaaaaaaaaaaaaaaaaaaaaaaaaaaaaaaaaaaaaaaaaaaaaaaaaaaaaa")
    (fun _ => none) 4 (fun _ => true) (.ok ()) "id" "uid" "x"
    "bbbbbbbbbbbbbbbbbbbbbbbbbbbbbbbbbbbbbbbbbbbbbbbbbbbbbbbbbbbbbbbb" "t" []
    (by decide) (by decide) (by decide) rfl
  exact ⟨h.1, h.2.2.2.2.2.1⟩

/-- C4: handle_eof maps a missing token to 400 Missing Token, a failed
authorization or unknown id to a bare 404, a close failing with Invalid to
400 Closed, any other close error to 500, and success to 200 with an empty
body. -/
theorem handle_eof_spec (sign : String → String) (pool : String → Option Unit)
    (closeResult : Except FlowError Unit) (flowId : String)
    (tokenParam : Option String) :
    (tokenParam = none →
      handle_eof sign pool closeResult flowId tokenParam =
        response_error "Missing Token") ∧
    (∀ tok, tokenParam = some tok →
      (verify sign flowId tok = false →
        handle_eof sign pool closeResult flowId tokenParam =
          notFoundResponse) ∧
      (pool flowId = none →
        handle_eof sign pool closeResult flowId tokenParam =
          notFoundResponse) ∧
      (verify sign flowId tok = true → (pool flowId).isSome →
        (closeResult = .error .invalid →
          handle_eof sign pool closeResult flowId tokenParam =
            response_error "Closed") ∧
        (∀ e, closeResult = .error e → e ≠ .invalid →
          handle_eof sign pool closeResult flowId tokenParam =
            { status := 500 }) ∧
        (closeResult = .ok () →
          handle_eof sign pool closeResult flowId tokenParam =
            response_ok ∧ response_ok.status = 200 ∧
            response_ok.body = none))) := by
  constructor
  · intro h; subst h; rfl
  · intro tok h; subst h
    refine ⟨?_, ?_, ?_⟩
    · intro hv; simp [handle_eof, hv]
    · intro hp
      simp only [handle_eof]
      cases hv : verify sign flowId tok with
      | false => simp
      | true => simp [hp]
    · intro hv hp
      obtain ⟨u, hu⟩ := Option.isSome_iff_exists.mp hp
      refine ⟨?_, ?_, ?_⟩
      · intro hc; subst hc; simp [handle_eof, hv, hu]
      · intro e hc hne; subst hc
        cases e with
        | invalid => exact absurd rfl hne
        | eof => simp [handle_eof, hv, hu]
        | dropped => simp [handle_eof, hv, hu]
        | notReady => simp [handle_eof, hv, hu]
        | timeout => simp [handle_eof, hv, hu]
        | internal => simp [handle_eof, hv, hu]
      · intro hc; subst hc
        exact ⟨by simp [handle_eof, hv, hu], rfl, rfl⟩

/-- Witness for handle_eof_spec: a valid token against a live flow whose
close fails as already closed yields 400 Closed. -/
theorem handle_eof_spec_witness :
    handle_eof (fun _ => "s") (fun _ => some ()) (.error .invalid) "id"
      (some "s") = response_error "Closed" :=
  ((handle_eof_spec (fun _ => "s") (fun _ => some ()) (.error .invalid) "id"
      (some "s")).2 "s" rfl).2.2 (by decide) (by decide) |>.1 rfl

/-- Membership in the dropLast of a cons comes from the head (when the tail
is non-empty) or from the dropLast of the tail. -/
theorem mem_dropLast_cons {α : Type} {c a : α} {l : List α}
    (h : c ∈ (a :: l).dropLast) : (c = a ∧ l ≠ []) ∨ c ∈ l.dropLast := by
  cases l with
  | nil => simp at h
  | cons b t =>
    rw [List.dropLast_cons₂] at h
    rcases List.mem_cons.mp h with h | h
    · exact Or.inl ⟨h, by simp⟩
    · exact Or.inr h

/-- Every payload the push fold hands to Flow.push, except possibly the
final flush, has reached at least REF_SIZE bytes. -/
theorem pushBody_dropLast_ge (refSize : Nat) (flowPush : List Nat → Bool) :
    ∀ (body : List (List Nat)) (buf : List Nat),
      ∀ c ∈ ((pushBody refSize flowPush body buf).1).dropLast,
        refSize ≤ c.length := by
  intro body
  induction body with
  | nil =>
    intro buf c hc
    simp only [pushBody] at hc
    by_cases h : 0 < buf.length
    · rw [if_pos h] at hc; simp at hc
    · rw [if_neg h] at hc; simp at hc
  | cons chunk rest ih =>
    intro buf c hc
    simp only [pushBody] at hc
    by_cases h1 : refSize ≤ (buf ++ chunk).length
    · rw [if_pos h1] at hc
      by_cases h2 : flowPush (buf ++ chunk) = true
      · rw [if_pos h2] at hc
        rcases mem_dropLast_cons hc with ⟨h3, _⟩ | h3
        · subst h3; exact h1
        · exact ih [] c h3
      · rw [if_neg h2] at hc; simp at hc
    · rw [if_neg h1] at hc
      exact ih (buf ++ chunk) c hc

/-- No payload the push fold hands to Flow.push is empty, provided REF_SIZE
is positive. -/
theorem pushBody_ne_nil (refSize : Nat) (flowPush : List Nat → Bool)
    (href : 0 < refSize) :
    ∀ (body : List (List Nat)) (buf : List Nat),
      ∀ c ∈ (pushBody refSize flowPush body buf).1, c ≠ [] := by
  intro body
  induction body with
  | nil =>
    intro buf c hc
    simp only [pushBody] at hc
    by_cases h : 0 < buf.length
    · rw [if_pos h] at hc
      simp at hc; subst hc
      intro hnil; rw [hnil] at h; simp at h
    · rw [if_neg h] at hc; simp at hc
  | cons chunk rest ih =>
    intro buf c hc
    simp only [pushBody] at hc
    by_cases h1 : refSize ≤ (buf ++ chunk).length
    · rw [if_pos h1] at hc
      by_cases h2 : flowPush (buf ++ chunk) = true
      · rw [if_pos h2] at hc
        rcases List.mem_cons.mp hc with h3 | h3
        · subst h3; intro hnil; rw [hnil] at h1; simp at h1; omega
        · exact ih [] c h3
      · rw [if_neg h2] at hc
        simp at hc; subst hc
        intro hnil; rw [hnil] at h1; simp at h1; omega
    · rw [if_neg h1] at hc
      exact ih (buf ++ chunk) c hc

/-- A body whose chunks are all empty never triggers a push and the fold
succeeds. -/
theorem pushBody_empty (refSize : Nat) (flowPush : List Nat → Bool)
    (href : 0 < refSize) :
    ∀ body : List (List Nat), (∀ c ∈ body, c = []) →
      pushBody refSize flowPush body [] = ([], true) := by
  intro body
  induction body with
  | nil => intro _; simp [pushBody]
  | cons chunk rest ih =>
    intro h
    have hc : chunk = [] := h chunk (List.mem_cons_self _ _)
    subst hc
    have h1 : ¬ refSize ≤ (([] : List Nat) ++ []).length := by
      simp; omega
    simp only [pushBody]
    rw [if_neg h1]
    exact ih fun c hc => h c (List.mem_cons_of_mem _ hc)

/-- C3: the push handler accumulates the body into a buffer and calls
Flow.push only once the buffer holds at least REF_SIZE bytes, apart from a
final non-empty flush at end-of-body; a zero-byte body produces no push at
all and a 200 response. -/
theorem handle_push_coalescing (refSize : Nat) (flowPush : List Nat → Bool)
    (sign : String → String) (pool : String → Option Unit)
    (flowId tok : String) (body : List (List Nat))
    (href : 0 < refSize) :
    (∀ c ∈ ((pushBody refSize flowPush body []).1).dropLast,
      refSize ≤ c.length) ∧
    (∀ c ∈ (pushBody refSize flowPush body []).1, c ≠ []) ∧
    ((∀ c ∈ body, c = []) →
      pushBody refSize flowPush body [] = ([], true) ∧
      (verify sign flowId tok = true → pool flowId = some () →
        handle_push sign pool refSize flowPush flowId (some tok) body =
          response_ok ∧ response_ok.status = 200)) := by
  refine ⟨pushBody_dropLast_ge refSize flowPush body [],
    pushBody_ne_nil refSize flowPush href body [], ?_⟩
  intro hb
  have hz := pushBody_empty refSize flowPush href body hb
  refine ⟨hz, ?_⟩
  intro hv hp
  exact ⟨by simp [handle_push, hv, hp, hz], rfl⟩

/-- Witness for handle_push_coalescing: a two-chunk zero-byte body yields
no push and a 200 response. -/
theorem handle_push_coalescing_witness :
    pushBody 4 (fun _ => true) [[], []] [] = ([], true) ∧
    handle_push (fun _ => "s") (fun _ => some ()) 4 (fun _ => true) "id"
      (some "s") [[], []] = response_ok := by
  have h := handle_push_coalescing 4 (fun _ => true) (fun _ => "s")
    (fun _ => some ()) "id" "s" [[], []] (by decide)
  have h2 := h.2.2 (by decide)
  exact ⟨h2.1, (h2.2 (by decide) rfl).1⟩

/-- FlowService::handle_status: 404 for an unknown id, otherwise 200 with
the JSON tail/next snapshot of Flow.get_range (the pool oracle carries the
looked-up flow range). -/
def handle_status (pool : Option (Nat × Nat)) : Response :=
  match pool with
  | none => notFoundResponse
  | some (t, n) =>
    { status := 200, contentType := some .json
      contentLength := some (strBytes (statusJson t n)).length
      body := some (strBytes (statusJson t n)) }

/-- ASCII decimal digit, the fragment of the regex digit class the claims
exercise (the Rust regex crate matches Unicode decimal digits; all inputs
in the spec and tests are ASCII). -/
def isDigitChar (c : Char) : Bool := '0' ≤ c && c ≤ '9'

/-- Numeric value of an ASCII digit string. -/
def digitsToNat (s : List Char) : Nat :=
  s.foldl (fun a c => a * 10 + (c.toNat - 48)) 0

/-- Embedding of str::parse::<u64> on the route-captured index: the capture
is a non-empty digit string, and parsing fails exactly when the value
overflows the unsigned 64-bit range. -/
def parseU64 (s : List Char) : Option Nat :=
  if !s.isEmpty && s.all isDigitChar then
    if digitsToNat s < 2 ^ 64 then some (digitsToNat s) else none
  else none

/-- FlowService::handle_fetch: parse the captured chunk index (failure is
400 Invalid Parameter), then resolve the flow (failure is a bare 404), then
pull the chunk without blocking: Eof and Dropped map to 404, any other
error to 500, success to 200 with the chunk bytes as an octet-stream
body. -/
def handle_fetch (pool : Option Unit)
    (pull : Nat → Except FlowError (List Nat)) (nStr : List Char) : Response :=
  match parseU64 nStr with
  | none => response_error "Invalid Parameter"
  | some idx =>
    match pool with
    | none => notFoundResponse
    | some _ =>
      match pull idx with
      | .ok chunk =>
        { status := 200, contentType := some .octetStream
          contentLength := some chunk.length, body := some chunk }
      | .error .eof => notFoundResponse
      | .error .dropped => notFoundResponse
      | .error _ => { status := 500 }

/-- Header part of FlowService::handle_pull, once the flow id has resolved:
the response is a 200 octet-stream whose body is streamed separately (see
pullStreamStep); Content-Length is set to the declared length exactly when
the flow is fixed-length and its tail is 0 at entry, and a filename query
parameter becomes an attachment Content-Disposition carrying the filename
bytes unchanged. -/
def handle_pull_head (configLength : Option Nat) (tailIdx : Nat)
    (optFilename : Option (List Nat)) : Response :=
  { status := 200
    contentType := some .octetStream
    contentLength :=
      match configLength with
      | some len => if tailIdx == 0 then some len else none
      | none => none
    contentDisposition :=
      match optFilename with
      | some f =>
        some { attachment := true, charset := "UTF-8", language := "en"
               filenameBytes := f }
      | none => none }

/-- One step of the stream::unfold body of handle_pull: state none means
the stream has ended; state some i pulls chunk i (index 0 is replaced by
the tail at entry), emitting the chunk and advancing on success, and
emitting one empty chunk and moving to the terminal state on any pull
error. -/
def pullStreamStep (tailIdx : Nat)
    (pull : Nat → Except FlowError (List Nat)) :
    Option Nat → Option (List Nat × Option Nat)
  | none => none
  | some i =>
    match pull (if i == 0 then tailIdx else i) with
    | .ok chunk => some (chunk, some ((if i == 0 then tailIdx else i) + 1))
    | .error _ => some (([] : List Nat), none)

/-- C7: the pull response carries a Content-Length exactly when the flow is
fixed-length and its tail is 0 at entry, and then its value is the declared
total length. -/
theorem handle_pull_content_length (configLength : Option Nat)
    (tailIdx : Nat) (optFilename : Option (List Nat)) (len : Nat) :
    (handle_pull_head configLength tailIdx optFilename).contentLength =
        some len ↔
      configLength = some len ∧ tailIdx = 0 := by
  cases configLength with
  | none => simp [handle_pull_head]
  | some l =>
    by_cases h : tailIdx = 0
    · subst h; simp [handle_pull_head]
    · simp [handle_pull_head, h]

/-- C9: a supplied filename query parameter becomes an attachment
Content-Disposition with the UTF-8 charset and en language tag whose
parameter bytes are exactly the original filename bytes, unchanged. -/
theorem handle_pull_disposition (configLength : Option Nat) (tailIdx : Nat)
    (f : List Nat) :
    (handle_pull_head configLength tailIdx (some f)).contentDisposition =
      some { attachment := true, charset := "UTF-8", language := "en"
             filenameBytes := f } := by
  cases configLength with
  | none => rfl
  | some l =>
    by_cases h : tailIdx = 0
    · subst h; rfl
    · simp [handle_pull_head]

/-- C10: once the flow resolves, the pull response status is 200 regardless
of anything later; every Flow.pull error during streaming emits one empty
chunk and moves the stream to its terminal state, after which nothing more
is emitted, and the emitted value does not depend on which error
occurred. -/
theorem handle_pull_stream_errors (configLength : Option Nat) (tailIdx : Nat)
    (optFilename : Option (List Nat))
    (pull : Nat → Except FlowError (List Nat)) (i : Nat) (e e2 : FlowError) :
    (handle_pull_head configLength tailIdx optFilename).status = 200 ∧
    (pull (if i == 0 then tailIdx else i) = .error e →
      pullStreamStep tailIdx pull (some i) = some ([], none)) ∧
    pullStreamStep tailIdx pull none = none ∧
    pullStreamStep tailIdx (fun _ => .error e) (some i) =
      pullStreamStep tailIdx (fun _ => .error e2) (some i) := by
  refine ⟨rfl, ?_, rfl, ?_⟩
  · intro h
    simp only [pullStreamStep]
    rw [h]
  · simp [pullStreamStep]

/-- Witness for handle_pull_stream_errors: an eof error at index 3 emits
one empty chunk and terminates the stream. -/
theorem handle_pull_stream_errors_witness :
    pullStreamStep 0 (fun _ => .error .eof) (some 3) = some ([], none) :=
  (handle_pull_stream_errors none 0 none (fun _ => .error .eof) 3 .eof
    .dropped).2.1 rfl

/-- Lowercase hex digit, the character class of the flow id captures. -/
def isHexLower (c : Char) : Bool := ('a' ≤ c && c ≤ 'f') || ('0' ≤ c && c ≤ '9')

/-- Path literal of PATTERN_PUSH, PATTERN_EOF, PATTERN_STATUS, PATTERN_FETCH
and PATTERN_PULL up to the id capture. -/
def litFlow : List Char := ['/', 'f', 'l', 'o', 'w', '/']

/-- Path literal of PATTERN_NEW. -/
def litNew : List Char := ['/', 'n', 'e', 'w']

/-- Suffix literal of PATTERN_PUSH. -/
def litPush : List Char := ['/', 'p', 'u', 's', 'h']

/-- Suffix literal of PATTERN_EOF. -/
def litEof : List Char := ['/', 'e', 'o', 'f']

/-- Suffix literal of PATTERN_STATUS. -/
def litStat : List Char := ['/', 's', 't', 'a', 't', 'u', 's']

/-- Mid literal of PATTERN_FETCH before the index capture. -/
def litFetch : List Char := ['/', 'f', 'e', 't', 'c', 'h', '/']

/-- Suffix literal of PATTERN_PULL with the optional final letter present. -/
def litPull : List Char := ['/', 'p', 'u', 'l', 'l']

/-- Suffix literal of PATTERN_PULL with the optional final letter absent
(the regex /pull? also accepts /pul). -/
def litPul : List Char := ['/', 'p', 'u', 'l']

/-- Consume an exact literal from the front of a path, anchored. -/
def dropLit : List Char → List Char → Option (List Char)
  | [], rest => some rest
  | _ :: _, [] => none
  | p :: ps, c :: cs => if c = p then dropLit ps cs else none

/-- Anchored matcher for the flow routes whose path is the flow literal, a
32-lowercase-hex id capture and an exact suffix; returns the id capture. -/
def matchFlowTail (suf : List Char) (path : List Char) : Option (List Char) :=
  match dropLit litFlow path with
  | none => none
  | some rest =>
    if (rest.take 32).length == 32 && (rest.take 32).all isHexLower
        && rest.drop 32 == suf
    then some (rest.take 32) else none

/-- PATTERN_NEW as an anchored matcher. -/
def matchNew (path : List Char) : Bool := path == litNew

/-- PATTERN_PUSH as an anchored matcher. -/
def matchPush (path : List Char) : Option (List Char) :=
  matchFlowTail litPush path

/-- PATTERN_EOF as an anchored matcher. -/
def matchEof (path : List Char) : Option (List Char) :=
  matchFlowTail litEof path

/-- PATTERN_STATUS as an anchored matcher. -/
def matchStatus (path : List Char) : Option (List Char) :=
  matchFlowTail litStat path

/-- PATTERN_PULL as an anchored matcher (the final letter is optional). -/
def matchPull (path : List Char) : Option (List Char) :=
  match dropLit litFlow path with
  | none => none
  | some rest =>
    if (rest.take 32).length == 32 && (rest.take 32).all isHexLower
        && (rest.drop 32 == litPull || rest.drop 32 == litPul)
    then some (rest.take 32) else none

/-- PATTERN_FETCH as an anchored matcher; returns the id capture and the
digit-string index capture. -/
def matchFetch (path : List Char) : Option (List Char × List Char) :=
  match dropLit litFlow path with
  | none => none
  | some rest =>
    if (rest.take 32).length == 32 && (rest.take 32).all isHexLower then
      match dropLit litFetch (rest.drop 32) with
      | none => none
      | some num =>
        if !num.isEmpty && num.all isDigitChar then
          some (rest.take 32, num)
        else none
    else none

/-- HTTP methods as FlowService::call distinguishes them: Post, Put, Get,
and the wildcard arm covering every other method. -/
inductive Method where
  | post
  | put
  | get
  | other
deriving DecidableEq, Repr

/-- Routing outcome of FlowService::call: a matched route with its
captures, no match (404), or a disallowed method (405). -/
inductive Route where
  | newR
  | pushR (id : List Char)
  | eofR (id : List Char)
  | statusR (id : List Char)
  | fetchR (id : List Char) (n : List Char)
  | pullR (id : List Char)
  | noRoute
  | badMethod
deriving DecidableEq, Repr

/-- Routing table of FlowService::call: POST tries new, push, eof, status in
order; PUT tries push; GET tries fetch then pull; any other method is
rejected. -/
def route (m : Method) (path : List Char) : Route :=
  match m with
  | .post =>
    if matchNew path then .newR
    else
      match matchPush path with
      | some id => .pushR id
      | none =>
        match matchEof path with
        | some id => .eofR id
        | none =>
          match matchStatus path with
          | some id => .statusR id
          | none => .noRoute
  | .put =>
    match matchPush path with
    | some id => .pushR id
    | none => .noRoute
  | .get =>
    match matchFetch path with
    | some (id, n) => .fetchR id n
    | none =>
      match matchPull path with
      | some id => .pullR id
      | none => .noRoute
  | .other => .badMethod

/-- Responses FlowService::call produces without invoking a handler: a bare
404 when no route matches and a bare 405 for a disallowed method. -/
def routeFallback : Route → Option Response
  | .noRoute => some notFoundResponse
  | .badMethod => some { status := 405 }
  | _ => none

/-- dropLit consumes exactly its literal from an anchored head. -/
theorem dropLit_append (lit : List Char) : ∀ r, dropLit lit (lit ++ r) = some r := by
  induction lit with
  | nil => intro r; rfl
  | cons a as ih =>
    intro r
    simp only [List.cons_append, dropLit, if_pos rfl]
    exact ih r

/-- A successful dropLit means the literal is the exact anchored head. -/
theorem dropLit_sound (lit : List Char) :
    ∀ p r, dropLit lit p = some r → p = lit ++ r := by
  induction lit with
  | nil =>
    intro p r h
    simp only [dropLit, Option.some.injEq] at h
    simp [h]
  | cons a as ih =>
    intro p r h
    cases p with
    | nil => simp [dropLit] at h
    | cons c cs =>
      simp only [dropLit] at h
      by_cases hc : c = a
      · rw [if_pos hc] at h
        subst hc
        rw [List.cons_append]
        exact congrArg (c :: ·) (ih cs r h)
      · rw [if_neg hc] at h; cases h

/-- Building a successful flow-route match from its components. -/
theorem matchFlowTail_eq (suf id : List Char) (h32 : id.length = 32)
    (hhex : id.all isHexLower = true) :
    matchFlowTail suf (litFlow ++ (id ++ suf)) = some id := by
  simp only [matchFlowTail, dropLit_append]
  rw [List.take_left' h32, List.drop_left' h32]
  simp [h32, hhex]

/-- A successful flow-route match decomposes the path exactly. -/
theorem matchFlowTail_sound (suf path id : List Char)
    (h : matchFlowTail suf path = some id) :
    path = litFlow ++ (id ++ suf) ∧ id.length = 32 ∧
      id.all isHexLower = true := by
  unfold matchFlowTail at h
  cases hd : dropLit litFlow path with
  | none => rw [hd] at h; cases h
  | some rest =>
    rw [hd] at h
    dsimp only at h
    by_cases hc : ((rest.take 32).length == 32 && (rest.take 32).all isHexLower
        && rest.drop 32 == suf) = true
    · rw [if_pos hc] at h
      have hid : rest.take 32 = id := by
        injection h
      simp only [Bool.and_eq_true, beq_iff_eq] at hc
      obtain ⟨⟨hlen, hhex⟩, hsuf⟩ := hc
      have hrest : rest = id ++ suf := by
        rw [← hid, ← hsuf, List.take_append_drop]
      refine ⟨?_, by rw [← hid]; exact hlen, by rw [← hid]; exact hhex⟩
      rw [dropLit_sound litFlow path rest hd, hrest]
    · rw [if_neg hc] at h; cases h

/-- A successful pull match decomposes the path exactly into one of the two
suffixes the optional-letter regex accepts. -/
theorem matchPull_sound (path id : List Char)
    (h : matchPull path = some id) :
    (path = litFlow ++ (id ++ litPull) ∨ path = litFlow ++ (id ++ litPul)) ∧
      id.length = 32 ∧ id.all isHexLower = true := by
  unfold matchPull at h
  cases hd : dropLit litFlow path with
  | none => rw [hd] at h; cases h
  | some rest =>
    rw [hd] at h
    dsimp only at h
    by_cases hc : ((rest.take 32).length == 32 && (rest.take 32).all isHexLower
        && (rest.drop 32 == litPull || rest.drop 32 == litPul)) = true
    · rw [if_pos hc] at h
      have hid : rest.take 32 = id := by
        injection h
      simp only [Bool.and_eq_true, Bool.or_eq_true, beq_iff_eq] at hc
      obtain ⟨⟨hlen, hhex⟩, hsuf⟩ := hc
      have hpath := dropLit_sound litFlow path rest hd
      refine ⟨?_, by rw [← hid]; exact hlen, by rw [← hid]; exact hhex⟩
      rcases hsuf with hsuf | hsuf
      · left
        rw [hpath, ← hid, ← hsuf, List.take_append_drop]
      · right
        rw [hpath, ← hid, ← hsuf, List.take_append_drop]
    · rw [if_neg hc] at h; cases h

/-- Building a successful fetch match from its components. -/
theorem matchFetch_eq (id n : List Char) (h32 : id.length = 32)
    (hhex : id.all isHexLower = true) (hne : n ≠ [])
    (hdig : n.all isDigitChar = true) :
    matchFetch (litFlow ++ (id ++ (litFetch ++ n))) = some (id, n) := by
  simp only [matchFetch, dropLit_append]
  rw [List.take_left' h32, List.drop_left' h32]
  simp [h32, hhex, dropLit_append, hne, hdig]

/-- A successful fetch match decomposes the path exactly; the index capture
is a non-empty digit string. -/
theorem matchFetch_sound (path id n : List Char)
    (h : matchFetch path = some (id, n)) :
    path = litFlow ++ (id ++ (litFetch ++ n)) ∧ id.length = 32 ∧
      id.all isHexLower = true ∧ n ≠ [] ∧ n.all isDigitChar = true := by
  unfold matchFetch at h
  cases hd : dropLit litFlow path with
  | none => rw [hd] at h; cases h
  | some rest =>
    rw [hd] at h
    dsimp only at h
    by_cases hc : ((rest.take 32).length == 32
        && (rest.take 32).all isHexLower) = true
    · rw [if_pos hc] at h
      cases hf : dropLit litFetch (rest.drop 32) with
      | none => rw [hf] at h; cases h
      | some num =>
        rw [hf] at h
        dsimp only at h
        by_cases hn : (!num.isEmpty && num.all isDigitChar) = true
        · rw [if_pos hn] at h
          have hid : rest.take 32 = id ∧ num = n := by
            have := Option.some.inj h
            exact ⟨congrArg Prod.fst this, congrArg Prod.snd this⟩
          simp only [Bool.and_eq_true, beq_iff_eq] at hc hn
          obtain ⟨hlen, hhex⟩ := hc
          obtain ⟨hne, hdig⟩ := hn
          have hnum : num ≠ [] := by
            intro hx; rw [hx] at hne; simp at hne
          have hrest : rest = id ++ (litFetch ++ n) := by
            rw [← hid.1, ← hid.2, ← dropLit_sound litFetch (rest.drop 32) num hf,
              List.take_append_drop]
          refine ⟨?_, by rw [← hid.1]; exact hlen, by rw [← hid.1]; exact hhex,
            by rw [← hid.2]; exact hnum, by rw [← hid.2]; exact hdig⟩
          rw [dropLit_sound litFlow path rest hd, hrest]
        · rw [if_neg hn] at h; cases h
    · rw [if_neg hc] at h; cases h

/-- PATTERN_NEW rejects any path ending in a slash. -/
theorem matchNew_slash (q : List Char) : matchNew (q ++ ['/']) = false := by
  cases hm : matchNew (q ++ ['/']) with
  | false => rfl
  | true =>
    have hp : q ++ ['/'] = litNew := by simpa [matchNew] using hm
    have h1 : (q ++ ['/']).getLast? = some '/' := List.getLast?_concat q
    rw [hp] at h1
    exact absurd h1 (by decide)

/-- A flow-route pattern whose suffix ends in a non-slash character rejects
any path ending in a slash. -/
theorem matchFlowTail_slash (suf q : List Char) (c : Char)
    (hsuf : suf.getLast? = some c) (hc : c ≠ '/') :
    matchFlowTail suf (q ++ ['/']) = none := by
  cases hm : matchFlowTail suf (q ++ ['/']) with
  | none => rfl
  | some id =>
    obtain ⟨hpath, -, -⟩ := matchFlowTail_sound suf _ id hm
    have hne : suf ≠ [] := by
      intro hx; rw [hx] at hsuf; cases hsuf
    have h1 : (q ++ ['/']).getLast? = some '/' := List.getLast?_concat q
    rw [hpath, show litFlow ++ (id ++ suf) = (litFlow ++ id) ++ suf by
        simp [List.append_assoc],
      List.getLast?_append_of_ne_nil _ hne, hsuf] at h1
    exact (hc (Option.some.inj h1)).elim

/-- PATTERN_PULL rejects any path ending in a slash. -/
theorem matchPull_slash (q : List Char) : matchPull (q ++ ['/']) = none := by
  cases hm : matchPull (q ++ ['/']) with
  | none => rfl
  | some id =>
    obtain ⟨hpath, -, -⟩ := matchPull_sound _ id hm
    have h1 : (q ++ ['/']).getLast? = some '/' := List.getLast?_concat q
    rcases hpath with hpath | hpath
    · rw [hpath, show litFlow ++ (id ++ litPull) = (litFlow ++ id) ++ litPull by
          simp [List.append_assoc],
        List.getLast?_append_of_ne_nil _ (by decide : litPull ≠ [])] at h1
      exact absurd h1 (by decide)
    · rw [hpath, show litFlow ++ (id ++ litPul) = (litFlow ++ id) ++ litPul by
          simp [List.append_assoc],
        List.getLast?_append_of_ne_nil _ (by decide : litPul ≠ [])] at h1
      exact absurd h1 (by decide)

/-- PATTERN_FETCH rejects any path ending in a slash. -/
theorem matchFetch_slash (q : List Char) : matchFetch (q ++ ['/']) = none := by
  cases hm : matchFetch (q ++ ['/']) with
  | none => rfl
  | some pr =>
    rcases pr with ⟨id, n⟩
    obtain ⟨hpath, -, -, hne, hdig⟩ := matchFetch_sound _ id n hm
    have hd : n.getLast? = some (n.getLast hne) :=
      List.getLast?_eq_getLast_of_ne_nil hne
    have h1 : (q ++ ['/']).getLast? = some '/' := List.getLast?_concat q
    rw [hpath, show litFlow ++ (id ++ (litFetch ++ n)) =
        (litFlow ++ id ++ litFetch) ++ n by simp [List.append_assoc],
      List.getLast?_append_of_ne_nil _ hne, hd] at h1
    have hmem : n.getLast hne ∈ n := List.getLast_mem hne
    have hdigit : isDigitChar (n.getLast hne) = true :=
      List.all_eq_true.mp hdig _ hmem
    rw [Option.some.inj h1] at hdigit
    exact absurd hdigit (by decide)

/-- Length of any path PATTERN_PUSH, PATTERN_EOF or PATTERN_STATUS
accepts. -/
theorem matchFlowTail_length (suf path id : List Char)
    (h : matchFlowTail suf path = some id) :
    path.length = 38 + suf.length := by
  obtain ⟨hpath, h32, -⟩ := matchFlowTail_sound suf path id h
  rw [hpath]
  simp [litFlow, h32]
  omega

/-- Length of any path PATTERN_PULL accepts. -/
theorem matchPull_length (path id : List Char) (h : matchPull path = some id) :
    path.length = 43 ∨ path.length = 42 := by
  obtain ⟨hpath, h32, -⟩ := matchPull_sound path id h
  rcases hpath with hpath | hpath
  · left; rw [hpath]; simp [litFlow, litPull, h32]
  · right; rw [hpath]; simp [litFlow, litPul, h32]

/-- Length of any path PATTERN_FETCH accepts: at least 46. -/
theorem matchFetch_length (path id n : List Char)
    (h : matchFetch path = some (id, n)) :
    path.length = 45 + n.length ∧ 1 ≤ n.length := by
  obtain ⟨hpath, h32, -, hne, -⟩ := matchFetch_sound path id n h
  constructor
  · rw [hpath]; simp [litFlow, litFetch, h32]; omega
  · cases n with
    | nil => exact absurd rfl hne
    | cons a l => simp

/-- PATTERN_NEW only accepts the 4-character path. -/
theorem matchNew_false_of_length (path : List Char) (h : path.length ≠ 4) :
    matchNew path = false := by
  cases hm : matchNew path with
  | false => rfl
  | true =>
    have hp : path = litNew := by simpa [matchNew] using hm
    rw [hp] at h
    exact absurd rfl h

/-- A path of the wrong length matches no flow-route pattern. -/
theorem matchFlowTail_none_of_length (suf path : List Char)
    (h : path.length ≠ 38 + suf.length) : matchFlowTail suf path = none := by
  cases hm : matchFlowTail suf path with
  | none => rfl
  | some id => exact absurd (matchFlowTail_length suf path id hm) h

/-- A path of the wrong length does not match PATTERN_PULL. -/
theorem matchPull_none_of_length (path : List Char)
    (h1 : path.length ≠ 43) (h2 : path.length ≠ 42) : matchPull path = none := by
  cases hm : matchPull path with
  | none => rfl
  | some id =>
    rcases matchPull_length path id hm with h | h
    · exact absurd h h1
    · exact absurd h h2

/-- A path of length at most 45 does not match PATTERN_FETCH. -/
theorem matchFetch_none_of_length (path : List Char)
    (h : path.length ≤ 45) : matchFetch path = none := by
  cases hm : matchFetch path with
  | none => rfl
  | some pr =>
    rcases pr with ⟨id, n⟩
    obtain ⟨hl, hn⟩ := matchFetch_length path id n hm
    omega

/-- POST falls through to 404 when all four POST patterns fail. -/
theorem route_post_eq_noRoute (path : List Char)
    (hn : matchNew path = false) (hp : matchPush path = none)
    (he : matchEof path = none) (hs : matchStatus path = none) :
    route .post path = .noRoute := by
  simp [route, hn, hp, he, hs]

/-- PUT falls through to 404 when the push pattern fails. -/
theorem route_put_eq_noRoute (path : List Char)
    (hp : matchPush path = none) : route .put path = .noRoute := by
  simp [route, hp]

/-- GET falls through to 404 when the fetch and pull patterns fail. -/
theorem route_get_eq_noRoute (path : List Char)
    (hf : matchFetch path = none) (hl : matchPull path = none) :
    route .get path = .noRoute := by
  simp [route, hf, hl]

/-- C6: routes are anchored exact matches: any path ending in a slash (so
trailing-slash variants), the concrete double-slash, traversal, and
suffix/prefix variations of known paths, match no route and fall through to
404 under each of POST, PUT and GET, while any method other than POST, PUT
or GET is answered 405 regardless of path. -/
theorem route_hygiene (q id path : List Char) (h32 : id.length = 32)
    (_hhex : id.all isHexLower = true) :
    (route .post (q ++ ['/']) = .noRoute ∧
      route .put (q ++ ['/']) = .noRoute ∧
      route .get (q ++ ['/']) = .noRoute) ∧
    (∀ m, m = Method.post ∨ m = Method.put ∨ m = Method.get →
      route m ['/', 'n', 'e', 'o'] = .noRoute ∧
      route m ['/', 'n', 'e', 'w', '/', '.', '.', '/', 'n', 'e', 'w'] =
        .noRoute ∧
      route m ['/', '/', 'n', 'e', 'w'] = .noRoute ∧
      route m ['/', 'n', 'e', 'w', '/'] = .noRoute) ∧
    route .put litNew = .noRoute ∧
    (∀ m, m = Method.post ∨ m = Method.put ∨ m = Method.get →
      route m (litFlow ++ (id ++ ['/', 'p', 'u', 's', 'h', 'a'])) =
        .noRoute ∧
      route m (litFlow ++ (id ++ ['/', 'p', 'u', 'l', 'l', 'b'])) =
        .noRoute) ∧
    route .other path = .badMethod ∧
    routeFallback .noRoute = some notFoundResponse ∧
    notFoundResponse.status = 404 ∧
    routeFallback .badMethod = some { status := 405 } := by
  refine ⟨?_, ?_, by decide, ?_, rfl, rfl, rfl, rfl⟩
  · have hn := matchNew_slash q
    have hp : matchPush (q ++ ['/']) = none :=
      matchFlowTail_slash litPush q 'h' (by decide) (by decide)
    have he : matchEof (q ++ ['/']) = none :=
      matchFlowTail_slash litEof q 'f' (by decide) (by decide)
    have hs : matchStatus (q ++ ['/']) = none :=
      matchFlowTail_slash litStat q 's' (by decide) (by decide)
    exact ⟨route_post_eq_noRoute _ hn hp he hs, route_put_eq_noRoute _ hp,
      route_get_eq_noRoute _ (matchFetch_slash q) (matchPull_slash q)⟩
  · intro m hm
    rcases hm with hm | hm | hm <;> subst hm <;> exact ⟨by decide, by decide,
      by decide, by decide⟩
  · intro m hm
    have hlen1 : (litFlow ++ (id ++ ['/', 'p', 'u', 's', 'h', 'a'])).length
        = 44 := by
      simp [litFlow, h32]
    have hlen2 : (litFlow ++ (id ++ ['/', 'p', 'u', 'l', 'l', 'b'])).length
        = 44 := by
      simp [litFlow, h32]
    have hpush1 : matchPush (litFlow ++ (id ++ ['/', 'p', 'u', 's', 'h', 'a']))
        = none := matchFlowTail_none_of_length litPush _ (by rw [hlen1]; decide)
    have heof1 : matchEof (litFlow ++ (id ++ ['/', 'p', 'u', 's', 'h', 'a']))
        = none := matchFlowTail_none_of_length litEof _ (by rw [hlen1]; decide)
    have hstat1 : matchStatus
        (litFlow ++ (id ++ ['/', 'p', 'u', 's', 'h', 'a'])) = none :=
      matchFlowTail_none_of_length litStat _ (by rw [hlen1]; decide)
    have hnew1 := matchNew_false_of_length
      (litFlow ++ (id ++ ['/', 'p', 'u', 's', 'h', 'a'])) (by rw [hlen1]; decide)
    have hfetch1 : matchFetch (litFlow ++ (id ++ ['/', 'p', 'u', 's', 'h', 'a']))
        = none := matchFetch_none_of_length _ (by rw [hlen1]; decide)
    have hpull1 : matchPull (litFlow ++ (id ++ ['/', 'p', 'u', 's', 'h', 'a']))
        = none := matchPull_none_of_length _ (by rw [hlen1]; decide)
        (by rw [hlen1]; decide)
    have hpush2 : matchPush (litFlow ++ (id ++ ['/', 'p', 'u', 'l', 'l', 'b']))
        = none := matchFlowTail_none_of_length litPush _ (by rw [hlen2]; decide)
    have heof2 : matchEof (litFlow ++ (id ++ ['/', 'p', 'u', 'l', 'l', 'b']))
        = none := matchFlowTail_none_of_length litEof _ (by rw [hlen2]; decide)
    have hstat2 : matchStatus
        (litFlow ++ (id ++ ['/', 'p', 'u', 'l', 'l', 'b'])) = none :=
      matchFlowTail_none_of_length litStat _ (by rw [hlen2]; decide)
    have hnew2 := matchNew_false_of_length
      (litFlow ++ (id ++ ['/', 'p', 'u', 'l', 'l', 'b'])) (by rw [hlen2]; decide)
    have hfetch2 : matchFetch (litFlow ++ (id ++ ['/', 'p', 'u', 'l', 'l', 'b']))
        = none := matchFetch_none_of_length _ (by rw [hlen2]; decide)
    have hpull2 : matchPull (litFlow ++ (id ++ ['/', 'p', 'u', 'l', 'l', 'b']))
        = none := matchPull_none_of_length _ (by rw [hlen2]; decide)
        (by rw [hlen2]; decide)
    rcases hm with hm | hm | hm <;> subst hm
    · exact ⟨route_post_eq_noRoute _ hnew1 hpush1 heof1 hstat1,
        route_post_eq_noRoute _ hnew2 hpush2 heof2 hstat2⟩
    · exact ⟨route_put_eq_noRoute _ hpush1, route_put_eq_noRoute _ hpush2⟩
    · exact ⟨route_get_eq_noRoute _ hfetch1 hpull1,
        route_get_eq_noRoute _ hfetch2 hpull2⟩

/-- Witness for route_hygiene at a concrete id, query path and extra
path. -/
theorem route_hygiene_witness :
    route .post (['a'] ++ ['/']) = .noRoute ∧
    route .get (litFlow ++
      (("0123456789abcdef0123456789abcdef").data ++
        ['/', 'p', 'u', 's', 'h', 'a'])) = .noRoute ∧
    route .other ['/'] = .badMethod := by
  have h := route_hygiene ['a'] ("0123456789abcdef0123456789abcdef").data
    ['/'] (by decide) (by decide)
  exact ⟨h.1.1, (h.2.2.2.1 Method.get (Or.inr (Or.inr rfl))).1,
    h.2.2.2.2.1⟩


/-- C8: the status path is routed only under POST, where the handler
answers 404 for an unknown id and 200 with the tail/next JSON for a live
flow; a GET on the same path matches no route and falls through to the
routing 404. -/
theorem status_post_only (id : List Char) (h32 : id.length = 32)
    (hhex : id.all isHexLower = true) (t n : Nat) :
    route .post (litFlow ++ (id ++ litStat)) = .statusR id ∧
    route .get (litFlow ++ (id ++ litStat)) = .noRoute ∧
    routeFallback .noRoute = some notFoundResponse ∧
    notFoundResponse.status = 404 ∧
    handle_status none = notFoundResponse ∧
    handle_status (some (t, n)) =
      { status := 200, contentType := some .json
        contentLength := some (strBytes (statusJson t n)).length
        body := some (strBytes (statusJson t n)) } := by
  have hlen : (litFlow ++ (id ++ litStat)).length = 45 := by
    simp [litFlow, litStat, h32]
  have hs : matchStatus (litFlow ++ (id ++ litStat)) = some id :=
    matchFlowTail_eq litStat id h32 hhex
  have hpost : route Method.post (litFlow ++ (id ++ litStat)) =
      .statusR id := by
    have hn := matchNew_false_of_length _ (by rw [hlen]; decide)
    have hp : matchPush (litFlow ++ (id ++ litStat)) = none :=
      matchFlowTail_none_of_length litPush _ (by rw [hlen]; decide)
    have he : matchEof (litFlow ++ (id ++ litStat)) = none :=
      matchFlowTail_none_of_length litEof _ (by rw [hlen]; decide)
    simp [route, hn, hp, he, hs]
  have hget : route Method.get (litFlow ++ (id ++ litStat)) = .noRoute :=
    route_get_eq_noRoute _
      (matchFetch_none_of_length _ hlen.le)
      (matchPull_none_of_length _ (by rw [hlen]; decide)
        (by rw [hlen]; decide))
  exact ⟨hpost, hget, rfl, rfl, rfl, rfl⟩

/-- Witness for status_post_only at a concrete id and range. -/
theorem status_post_only_witness :
    route .post (litFlow ++
        (("0123456789abcdef0123456789abcdef").data ++ litStat)) =
      .statusR ("0123456789abcdef0123456789abcdef").data ∧
    handle_status (some (0, 2)) =
      { status := 200, contentType := some .json
        contentLength := some (strBytes (statusJson 0 2)).length
        body := some (strBytes (statusJson 0 2)) } := by
  have h := status_post_only ("0123456789abcdef0123456789abcdef").data
    (by decide) (by decide) 0 2
  exact ⟨h.1, h.2.2.2.2.2⟩

/-- C5 counterexample: a fetch request whose chunk index is non-numeric,
such as abc, does not match the fetch route at all, so the response is the
routing 404 with no body, not the 400 the claim asserts. -/
theorem fetch_nonnumeric_counterexample :
    route .get ("/flow/0123456789abcdef0123456789abcdef/fetch/abc").data =
      .noRoute ∧
    routeFallback (route .get
        ("/flow/0123456789abcdef0123456789abcdef/fetch/abc").data) =
      some notFoundResponse ∧
    notFoundResponse.status = 404 ∧ ¬ notFoundResponse.status = 400 := by
  decide

/-- C5 (amended): a non-numeric index never reaches the handler (no route
matches, yielding 404); a digit-string index that overflows u64 parses to
an error and yields 400 Invalid Parameter; with a parsed index, an unknown
id yields 404, a pull failing with Eof or Dropped yields 404, any other
pull error yields 500, and success yields 200 with the chunk bytes as an
octet-stream body. -/
theorem handle_fetch_spec (id n : List Char) (h32 : id.length = 32)
    (hhex : id.all isHexLower = true)
    (pool : Option Unit) (pull : Nat → Except FlowError (List Nat)) :
    (¬ (n ≠ [] ∧ n.all isDigitChar = true) →
      route .get (litFlow ++ (id ++ (litFetch ++ n))) = .noRoute) ∧
    (n ≠ [] → n.all isDigitChar = true →
      route .get (litFlow ++ (id ++ (litFetch ++ n))) = .fetchR id n ∧
      (2 ^ 64 ≤ digitsToNat n →
        handle_fetch pool pull n = response_error "Invalid Parameter")) ∧
    (∀ m, parseU64 n = some m →
      (pool = none → handle_fetch pool pull n = notFoundResponse) ∧
      (pool = some () →
        (pull m = .error .eof → handle_fetch pool pull n = notFoundResponse) ∧
        (pull m = .error .dropped →
          handle_fetch pool pull n = notFoundResponse) ∧
        (∀ e, pull m = .error e → e ≠ .eof → e ≠ .dropped →
          handle_fetch pool pull n = { status := 500 }) ∧
        (∀ chunk, pull m = .ok chunk →
          handle_fetch pool pull n =
            { status := 200, contentType := some .octetStream
              contentLength := some chunk.length, body := some chunk }))) := by
  refine ⟨?_, ?_, ?_⟩
  · intro hbad
    have hf : matchFetch (litFlow ++ (id ++ (litFetch ++ n))) = none := by
      cases hm : matchFetch (litFlow ++ (id ++ (litFetch ++ n))) with
      | none => rfl
      | some pr =>
        rcases pr with ⟨i2, n2⟩
        obtain ⟨hpath, h32b, -, hne2, hdig2⟩ := matchFetch_sound _ i2 n2 hm
        have hmid : id ++ (litFetch ++ n) = i2 ++ (litFetch ++ n2) :=
          List.append_cancel_left hpath
        have hids := List.append_inj hmid (h32 ▸ h32b.symm ▸ rfl)
        have hn2 : n = n2 :=
          List.append_cancel_left (hids.2 : litFetch ++ n = litFetch ++ n2)
        exact (hbad ⟨hn2 ▸ hne2, hn2 ▸ hdig2⟩).elim
    have hl : matchPull (litFlow ++ (id ++ (litFetch ++ n))) = none := by
      cases hm : matchPull (litFlow ++ (id ++ (litFetch ++ n))) with
      | none => rfl
      | some i2 =>
        obtain ⟨hpath, h32b, -⟩ := matchPull_sound _ i2 hm
        rcases hpath with hpath | hpath
        · have := congrArg List.length hpath
          simp [litFlow, litFetch, litPull, h32, h32b] at this
          omega
        · have := congrArg List.length hpath
          simp [litFlow, litFetch, litPul, h32, h32b] at this
          omega
    exact route_get_eq_noRoute _ hf hl
  · intro hne hdig
    have hfe : matchFetch (litFlow ++ (id ++ (litFetch ++ n))) =
        some (id, n) := matchFetch_eq id n h32 hhex hne hdig
    refine ⟨by simp [route, hfe], ?_⟩
    intro hover
    have hiE : n.isEmpty = false := by
      cases n with
      | nil => exact absurd rfl hne
      | cons a l => rfl
    have hp : parseU64 n = none := by
      simp [parseU64, hiE, hdig]
      simpa using hover
    simp [handle_fetch, hp]
  · intro m hm
    refine ⟨?_, ?_⟩
    · intro hpool; subst hpool
      simp [handle_fetch, hm]
    · intro hpool; subst hpool
      refine ⟨?_, ?_, ?_, ?_⟩
      · intro hpull; simp [handle_fetch, hm, hpull]
      · intro hpull; simp [handle_fetch, hm, hpull]
      · intro e hpull he hd
        cases e with
        | eof => exact absurd rfl he
        | dropped => exact absurd rfl hd
        | invalid => simp [handle_fetch, hm, hpull]
        | notReady => simp [handle_fetch, hm, hpull]
        | timeout => simp [handle_fetch, hm, hpull]
        | internal => simp [handle_fetch, hm, hpull]
      · intro chunk hpull; simp [handle_fetch, hm, hpull]

/-- Witness for handle_fetch_spec: an overflowing 20-digit index yields 400
Invalid Parameter, and a pull hitting Eof yields 404. -/
theorem handle_fetch_spec_witness :
    handle_fetch (some ()) (fun _ => .error .eof)
      ("18446744073709551616").data = response_error "Invalid Parameter" ∧
    handle_fetch (some ()) (fun _ => .error .eof) ['7'] =
      notFoundResponse := by
  constructor
  · exact ((handle_fetch_spec ("0123456789abcdef0123456789abcdef").data
      ("18446744073709551616").data (by decide) (by decide) (some ())
      (fun _ => .error .eof)).2.1 (by decide) (by decide)).2 (by decide)
  · exact (((handle_fetch_spec ("0123456789abcdef0123456789abcdef").data
      ['7'] (by decide) (by decide) (some ())
      (fun _ => .error .eof)).2.2 7 (by decide)).2 rfl).1 rfl
